import Mathlib

set_option maxHeartbeats 1000000

/-!
Shallow embedding of the tournament engine of `src/bot.py` (dota2_bot).

The embedding models the pure state transitions that the bot performs on its
MongoDB documents.  A tournament document is a `Tournament` record; a player
document is a `PlayerRec`; the players collection is a total function
`Nat → PlayerRec` (the bot creates a default document on first reference).
The bot's `random`-based match ids are modelled by an id counter `nid` passed
to every match-creating operation, and `random.shuffle` is modelled by an
injectable shuffle parameter (the spec requires the randomness source to be
injectable).  Python truthiness of strings (`if match.get("winner"):`,
`if loser:`) is modelled faithfully: `None` and the empty string are falsy.
-/

/-- Error outcomes of the engine's operations, per the spec's taxonomy.
The bot reports these as chat messages; the spec maps each message to a
typed failure. -/
inductive Err where
  | NotFound
  | InvalidState
  | AlreadyResolved
  | Validation
deriving DecidableEq

/-- A match object as created by `create_round_matches` / `try_pair_pending`
(src/bot.py lines 159, 163, 215, 223, 232, 239): keys `id`, `teamA`, `teamB`
(None for a bye), `winner`, `bracket` ("upper" or "lower") and the optional
`bye` flag (absent key defaults to `False`). -/
structure Match where
  id : Nat
  teamA : String
  teamB : Option String
  winner : Option String
  bracket : String
  bye : Bool
deriving DecidableEq

/-- A player document (src/bot.py lines 77-78): `elo` (default 1200),
`wins`, `losses`. -/
structure PlayerRec where
  elo : Int
  wins : Nat
  losses : Nat
deriving DecidableEq

/-- A tournament document (src/bot.py `create_tournament_doc`, lines 166-179).
`teams` is the insertion-ordered dict teamName -> player ids. -/
structure Tournament where
  name : String
  teams : List (String × List Nat)
  status : String
  pending_upper : List String
  pending_lower : List String
  matches' : List Match
  upper_rounds : List (List Nat)
  lower_rounds : List (List Nat)
  champion : Option String
deriving DecidableEq

/-- Python truthiness of an optional string: `None` and `""` are falsy.
Used for `if match.get("winner"):` (src/bot.py line 584). -/
def truthyStr : Option String → Bool
  | none => false
  | some s => !(s == "")

/-- Dict update `teams[team_name] = player_ids` as performed by `addteam`
via Mongo `$set {teams.team_name: player_ids}` (src/bot.py line 485):
replaces the value of an existing key in place, otherwise appends. -/
def setTeam : List (String × List Nat) → String → List Nat → List (String × List Nat)
  | [], n, v => [(n, v)]
  | (k, w) :: rest, n, v =>
    if k == n then (n, v) :: rest else (k, w) :: setTeam rest n v

/-- Dict lookup `teams[name]`. -/
def lookupTeam : List (String × List Nat) → String → Option (List Nat)
  | [], _ => none
  | (k, v) :: rest, n => if k == n then some v else lookupTeam rest n

/-- The pairing loop shared by `create_round_matches` (src/bot.py lines
156-163) and `try_pair_pending` (lines 213-226 and 230-242): take teams two
at a time into an unresolved match; a single leftover team receives a bye
match with `teamB = None` and `winner` pre-set to itself.  The id counter
`i` stands for the successive `make_match_id()` calls. -/
def pairTeams (bracket : String) : Nat → List String → List Match
  | _, [] => []
  | i, [a] => [{ id := i, teamA := a, teamB := none, winner := some a,
                 bracket := bracket, bye := true }]
  | i, a :: b :: rest =>
    { id := i, teamA := a, teamB := some b, winner := none,
      bracket := bracket, bye := false } :: pairTeams bracket (i + 1) rest

/-- `create_round_matches` (src/bot.py lines 149-164).  `random.shuffle` is
modelled by taking the already-shuffled list as input; the while loop pops
the two teams from the END of the shuffled list each iteration, which is the
same as consuming the reversed list front to back; a leftover single team
(the first element of the shuffled list) gets the bye. -/
def create_round_matches (shuffled : List String) (nid : Nat) : List Match :=
  pairTeams "upper" nid shuffled.reverse

/-- The loser as computed by the elimination scan (src/bot.py line 257):
`loser = m["teamA"] if m["teamB"] == m["winner"] else m["teamB"]`. -/
def loserOfMatch (m : Match) : Option String :=
  if m.teamB = m.winner then some m.teamA else m.teamB

/-- The eliminated-team scan of `try_pair_pending` (src/bot.py lines
253-263): a team is recorded as eliminated when it is the loser of a
`lower`-tagged match whose winner `is not None` and which is not a bye;
the `if loser:` guard skips a falsy loser (`None` or `""`). -/
def eliminatedTeams (ms : List Match) : List String :=
  ms.filterMap fun m =>
    if m.bracket = "lower" ∧ m.winner ≠ none ∧ m.bye = false then
      match loserOfMatch m with
      | some l => if l = "" then none else some l
      | none => none
    else none

/-- `alive` (src/bot.py line 264): all team names not in the eliminated
set. -/
def aliveTeams (t : Tournament) : List String :=
  (t.teams.map Prod.fst).filter fun tm => decide (tm ∉ eliminatedTeams t.matches')

/-- The pairing part of `try_pair_pending` (src/bot.py lines 211-246): drain
`pending_upper` into upper matches (pairs first, then a bye for an odd
leftover), then `pending_lower` into lower matches, appending each created
match to `matches` and pushing a one-element round per match; the loops
consume both pools entirely, and the drained (empty) pools are stored
back. -/
def pairPendingState (t : Tournament) (nid : Nat) : Tournament :=
  { t with
    matches' := t.matches' ++ pairTeams "upper" nid t.pending_upper ++
      pairTeams "lower" (nid + (pairTeams "upper" nid t.pending_upper).length)
        t.pending_lower,
    upper_rounds := t.upper_rounds ++
      (pairTeams "upper" nid t.pending_upper).map (fun m => [m.id]),
    lower_rounds := t.lower_rounds ++
      (pairTeams "lower" (nid + (pairTeams "upper" nid t.pending_upper).length)
        t.pending_lower).map (fun m => [m.id]),
    pending_upper := [], pending_lower := [] }

/-- `try_pair_pending` (src/bot.py lines 201-270): run the pairing pass,
then the elimination scan on the refetched document; when exactly one team
is alive, set `status = "finished"` and `champion = alive[0]`. -/
def try_pair_pending (t : Tournament) (nid : Nat) : Tournament :=
  if (aliveTeams (pairPendingState t nid)).length = 1 then
    { pairPendingState t nid with
      status := "finished",
      champion := (aliveTeams (pairPendingState t nid)).head? }
  else pairPendingState t nid

/-- `addteam` (src/bot.py lines 474-486): fails only when the tournament is
absent; the team map is updated with replace semantics.  No tournament
status is consulted. -/
def addteam (ot : Option Tournament) (team_name : String) (player_ids : List Nat) :
    Except Err Tournament :=
  match ot with
  | none => Except.error Err.NotFound
  | some t => Except.ok { t with teams := setTeam t.teams team_name player_ids }

/-- `starttourney` (src/bot.py lines 508-527): fails when the tournament is
absent or has fewer than 2 teams (no status check appears in the code);
otherwise pairs the shuffled full team list into upper matches, appends
them, stores empty pending pools, sets status `"running"` and pushes the
round of new match ids onto `upper_rounds`. -/
def starttourney (ot : Option Tournament) (shuffle : List String → List String)
    (nid : Nat) : Except Err Tournament :=
  match ot with
  | none => Except.error Err.NotFound
  | some t =>
    if (t.teams.map Prod.fst).length < 2 then Except.error Err.InvalidState
    else
      Except.ok { t with
        matches' := t.matches' ++
          create_round_matches (shuffle (t.teams.map Prod.fst)) nid,
        status := "running", pending_upper := [], pending_lower := [],
        upper_rounds := t.upper_rounds ++
          [(create_round_matches (shuffle (t.teams.map Prod.fst)) nid).map
            (fun m => m.id)] }

/-- `find_match` (src/bot.py lines 194-198): first match with the given
id. -/
def find_match (t : Tournament) (mid : Nat) : Option Match :=
  t.matches'.find? fun m => m.id == mid

/-- The Mongo positional update `{"matches.id": match_id}
{$set: {"matches.$.winner": winner_team}}` (src/bot.py lines 596-599): set
the winner of the FIRST match in the array with the given id. -/
def setMatchWinner : List Match → Nat → String → List Match
  | [], _, _ => []
  | m :: rest, mid, w =>
    if m.id == mid then { m with winner := some w } :: rest
    else m :: setMatchWinner rest mid w

/-- The tournament-document effect of `matchresult` (src/bot.py lines
574-623): reject a missing tournament or match (`NotFound`), a match whose
`winner` is truthy (`AlreadyResolved`), or a winner/loser name that is not a
key of `teams` (`Validation`); otherwise record the winner on the match,
append the loser to `pending_lower` and the winner to `pending_upper`, and
run `try_pair_pending`.  The player-collection effect of the same source
function is `matchresult_players` below. -/
def matchresult (ot : Option Tournament) (mid : Nat) (wt lt : String) (nid : Nat) :
    Except Err Tournament :=
  match ot with
  | none => Except.error Err.NotFound
  | some t =>
    match find_match t mid with
    | none => Except.error Err.NotFound
    | some m =>
      if truthyStr m.winner then Except.error Err.AlreadyResolved
      else if wt ∉ t.teams.map Prod.fst ∨ lt ∉ t.teams.map Prod.fst then
        Except.error Err.Validation
      else
        Except.ok (try_pair_pending
          { t with matches' := setMatchWinner t.matches' mid wt,
                   pending_lower := t.pending_lower ++ [lt],
                   pending_upper := t.pending_upper ++ [wt] } nid)

/-- Whether team `tm` appears in match `m` (as `teamA` or as `teamB`). -/
def appearsIn (tm : String) (m : Match) : Bool :=
  decide (m.teamA = tm ∨ m.teamB = some tm)

open Classical in
/-- Python's built-in `round` (banker's rounding, round half to even), used
by `adjust_elo_for_match` (src/bot.py lines 116 and 120).  The bot's float
arithmetic is modelled with exact real arithmetic. -/
noncomputable def pyround (x : ℝ) : Int :=
  if Int.fract x = 1 / 2 then (if Even ⌊x⌋ then ⌊x⌋ else ⌊x⌋ + 1)
  else round x

/-- The team average `sum(players[p]["elo"] for p in ids)/len(ids)`
(src/bot.py lines 106-107). -/
noncomputable def team_avg (tbl : Nat → PlayerRec) (ids : List Nat) : ℝ :=
  (ids.map fun p => ((tbl p).elo : ℝ)).sum / ids.length

/-- `expected_win = 1/(1 + 10 ** ((lose_avg - win_avg)/400))` (src/bot.py
line 109). -/
noncomputable def expected_win (tbl : Nat → PlayerRec) (winner_ids loser_ids : List Nat) : ℝ :=
  1 / (1 + (10 : ℝ) ^ ((team_avg tbl loser_ids - team_avg tbl winner_ids) / 400))

/-- One step of the persistence loop of `adjust_elo_for_match` (src/bot.py
lines 124-128): winners get `$inc wins 1` and their new elo, losers get
`$inc losses 1` and their new elo. -/
def elo_apply (winner_ids : List Nat) (acc : Nat → PlayerRec) (pu : Nat × Int) :
    Nat → PlayerRec :=
  if pu.1 ∈ winner_ids then
    Function.update acc pu.1
      { elo := pu.2, wins := (acc pu.1).wins + 1, losses := (acc pu.1).losses }
  else
    Function.update acc pu.1
      { elo := pu.2, wins := (acc pu.1).wins, losses := (acc pu.1).losses + 1 }

/-- `adjust_elo_for_match` (src/bot.py lines 93-128): captures all player
documents first, computes both team averages and the expected scores from
those captured ratings, builds the batch of `(pid, new_elo)` updates -
winners first (`round(old + k*(1 - expected_win))`), then losers
(`round(old + k*(0 - expected_lose))`, where `expected_lose = 1 -
expected_win`) - and only then persists them with the win/loss
increments. -/
noncomputable def adjust_elo_for_match (tbl : Nat → PlayerRec)
    (winner_ids loser_ids : List Nat) (k : ℝ) : Nat → PlayerRec :=
  ((winner_ids.map fun pid =>
      (pid, pyround (((tbl pid).elo : ℝ) +
        k * (1 - expected_win tbl winner_ids loser_ids)))) ++
   (loser_ids.map fun pid =>
      (pid, pyround (((tbl pid).elo : ℝ) +
        k * (0 - (1 - expected_win tbl winner_ids loser_ids)))))).foldl
    (elo_apply winner_ids) tbl

/-- A players collection in which every player has elo 1200, 3 wins and 4
losses. -/
def tbl0 : Nat → PlayerRec := fun _ => { elo := 1200, wins := 3, losses := 4 }

/-! ### Demonstration states used by concrete theorems -/

/-- A fresh 3-team tournament in setup state, as created by `createtourney`
followed by three `addteam` calls. -/
def demo0 : Tournament :=
  { name := "T", teams := [("A", [1]), ("B", [2]), ("C", [3])],
    status := "setup", pending_upper := [], pending_lower := [],
    matches' := [], upper_rounds := [], lower_rounds := [], champion := none }

/-- The shuffle outcome that pairs A vs B and gives C the bye (the while
loop pops from the end of the shuffled list). -/
def shufCBA : List String → List String := fun _ => ["C", "B", "A"]

/-- `demo0` after `starttourney` under `shufCBA`: one upper match A vs B
(id 0) and an upper bye for C (id 1). -/
def demo1 : Tournament :=
  { name := "T", teams := [("A", [1]), ("B", [2]), ("C", [3])],
    status := "running", pending_upper := [], pending_lower := [],
    matches' :=
      [{ id := 0, teamA := "A", teamB := some "B", winner := none,
         bracket := "upper", bye := false },
       { id := 1, teamA := "C", teamB := none, winner := some "C",
         bracket := "upper", bye := true }],
    upper_rounds := [[0, 1]], lower_rounds := [], champion := none }

/-- `demo1` after `matchresult` reports A beating B (ids 2 and 3 for the
new matches): A receives an upper bye and B a lower bye; C stays stranded.
-/
def demo2 : Tournament :=
  { name := "T", teams := [("A", [1]), ("B", [2]), ("C", [3])],
    status := "running", pending_upper := [], pending_lower := [],
    matches' :=
      [{ id := 0, teamA := "A", teamB := some "B", winner := some "A",
         bracket := "upper", bye := false },
       { id := 1, teamA := "C", teamB := none, winner := some "C",
         bracket := "upper", bye := true },
       { id := 2, teamA := "A", teamB := none, winner := some "A",
         bracket := "upper", bye := true },
       { id := 3, teamA := "B", teamB := none, winner := some "B",
         bracket := "lower", bye := true }],
    upper_rounds := [[0, 1], [2]], lower_rounds := [[3]], champion := none }

/-- The unresolved upper match A vs B (id 0) of `demo1`. -/
def mAB : Match :=
  { id := 0, teamA := "A", teamB := some "B", winner := none,
    bracket := "upper", bye := false }

/-- `demo1` with every field equal but the status forced to `"finished"`. -/
def demoF : Tournament := { demo1 with status := "finished" }

/-- The result of reporting A over B on `demoF`: same as `demo2` except the
input status `"finished"` is carried through. -/
def demo2F : Tournament := { demo2 with status := "finished" }

/-- The result of reporting "C" as winner and "A" as loser of match 0 of
`demo1`, although the match's recorded sides are A and B: the code accepts
it and records C as the winner. -/
def demo2c : Tournament :=
  { name := "T", teams := [("A", [1]), ("B", [2]), ("C", [3])],
    status := "running", pending_upper := [], pending_lower := [],
    matches' :=
      [{ id := 0, teamA := "A", teamB := some "B", winner := some "C",
         bracket := "upper", bye := false },
       { id := 1, teamA := "C", teamB := none, winner := some "C",
         bracket := "upper", bye := true },
       { id := 2, teamA := "C", teamB := none, winner := some "C",
         bracket := "upper", bye := true },
       { id := 3, teamA := "A", teamB := none, winner := some "A",
         bracket := "lower", bye := true }],
    upper_rounds := [[0, 1], [2]], lower_rounds := [[3]], champion := none }

/-- `demo1` after `addteam` of a new team D while status is `"running"`. -/
def demo1D : Tournament :=
  { demo1 with teams := [("A", [1]), ("B", [2]), ("C", [3]), ("D", [9])] }

/-- A tournament with a team literally named `""` that has lost a resolved,
non-bye, lower-tagged match (match 0: X beat the empty-named team). -/
def demoL : Tournament :=
  { name := "L", teams := [("", [1]), ("X", [2])],
    status := "running", pending_upper := [], pending_lower := [],
    matches' :=
      [{ id := 0, teamA := "X", teamB := some "", winner := some "X",
         bracket := "lower", bye := false }],
    upper_rounds := [], lower_rounds := [[0]], champion := none }

/-- A tournament whose match 0 has `winner` already set to the team named
`""`: Python truthiness treats that winner as unset. -/
def demoE : Tournament :=
  { name := "E", teams := [("", [1]), ("X", [2])],
    status := "running", pending_upper := [], pending_lower := [],
    matches' :=
      [{ id := 0, teamA := "X", teamB := some "", winner := some "",
         bracket := "upper", bye := false }],
    upper_rounds := [[0]], lower_rounds := [], champion := none }

/-- `demoE` after a second `matchresult` call on match 0: the recorded
winner `""` is overwritten by `"X"`. -/
def demoE2 : Tournament :=
  { name := "E", teams := [("", [1]), ("X", [2])],
    status := "running", pending_upper := [], pending_lower := [],
    matches' :=
      [{ id := 0, teamA := "X", teamB := some "", winner := some "X",
         bracket := "upper", bye := false },
       { id := 7, teamA := "X", teamB := none, winner := some "X",
         bracket := "upper", bye := true },
       { id := 8, teamA := "", teamB := none, winner := some "",
         bracket := "lower", bye := true }],
    upper_rounds := [[0], [7]], lower_rounds := [[8]], champion := none }

/-- A 2-team tournament in which B has a recorded non-bye lower loss, so
exactly one team (A) is alive. -/
def demoW4 : Tournament :=
  { name := "W", teams := [("A", [1]), ("B", [2])],
    status := "running", pending_upper := [], pending_lower := [],
    matches' :=
      [{ id := 0, teamA := "A", teamB := some "B", winner := some "A",
         bracket := "lower", bye := false }],
    upper_rounds := [], lower_rounds := [[0]], champion := none }

/-- `demo1` after `starttourney` is invoked AGAIN (while already running)
with the identity shuffle and id counter 10: the code happily restarts it.
-/
def demo1S : Tournament :=
  { demo1 with
    matches' := demo1.matches' ++
      [{ id := 10, teamA := "C", teamB := some "B", winner := none,
         bracket := "upper", bye := false },
       { id := 11, teamA := "A", teamB := none, winner := some "A",
         bracket := "upper", bye := true }],
    upper_rounds := [[0, 1], [10, 11]] }

/-! ### Helper lemmas -/

theorem lookupTeam_setTeam_self : ∀ (ts : List (String × List Nat)) (nm : String)
    (ids : List Nat), lookupTeam (setTeam ts nm ids) nm = some ids
  | [], nm, ids => by simp [setTeam, lookupTeam]
  | (k, w) :: rest, nm, ids => by
    by_cases h : k == nm
    · simp [setTeam, lookupTeam, h]
    · simp only [setTeam, lookupTeam, h, if_false, Bool.false_eq_true]
      exact lookupTeam_setTeam_self rest nm ids

theorem lookupTeam_setTeam_other : ∀ (ts : List (String × List Nat)) (nm k : String)
    (ids : List Nat), k ≠ nm → lookupTeam (setTeam ts nm ids) k = lookupTeam ts k
  | [], nm, k, ids, hk => by
    have hnmk : (nm == k) = false := by simpa using Ne.symm hk
    simp [setTeam, lookupTeam, hnmk]
  | (k0, w) :: rest, nm, k, ids, hk => by
    by_cases h : k0 == nm
    · have hkn : k0 = nm := by simpa using h
      subst hkn
      have hk0k : (k0 == k) = false := by simpa using Ne.symm hk
      simp [setTeam, lookupTeam, hk0k]
    · simp only [setTeam]
      rw [if_neg (by simpa using h)]
      simp only [lookupTeam]
      by_cases h2 : k0 == k
      · simp [h2]
      · rw [if_neg (by simpa using h2), if_neg (by simpa using h2)]
        exact lookupTeam_setTeam_other rest nm k ids hk

theorem try_pair_pending_pools (t : Tournament) (nid : Nat) :
    (try_pair_pending t nid).pending_upper = [] ∧
    (try_pair_pending t nid).pending_lower = [] := by
  unfold try_pair_pending pairPendingState
  split <;> exact ⟨rfl, rfl⟩

theorem try_pair_pending_matches (t : Tournament) (nid : Nat) :
    (try_pair_pending t nid).matches' = (pairPendingState t nid).matches' := by
  unfold try_pair_pending
  split <;> rfl

theorem try_pair_pending_finished (t : Tournament) (nid : Nat) (c : String)
    (h : aliveTeams (pairPendingState t nid) = [c]) :
    (try_pair_pending t nid).status = "finished" ∧
    (try_pair_pending t nid).champion = some c := by
  unfold try_pair_pending
  rw [h]
  simp [List.head?]

theorem setMatchWinner_find? : ∀ (ms : List Match) (mid : Nat) (w : String) (m : Match),
    ms.find? (fun x => x.id == mid) = some m →
    (setMatchWinner ms mid w).find? (fun x => x.id == mid) =
      some { m with winner := some w }
  | [], mid, w, m => by simp
  | x :: rest, mid, w, m => by
    intro hfind
    by_cases hx : x.id == mid
    · rw [List.find?_cons_of_pos (p := fun y => y.id == mid) rest hx] at hfind
      injection hfind with hm
      subst hm
      rw [setMatchWinner, if_pos hx]
      exact List.find?_cons_of_pos (p := fun y => y.id == mid)
        (a := { x with winner := some w }) rest hx
    · rw [List.find?_cons_of_neg (p := fun y => y.id == mid) rest
        (by simpa using hx)] at hfind
      rw [setMatchWinner, if_neg hx]
      rw [List.find?_cons_of_neg (p := fun y => y.id == mid) (a := x)
        (setMatchWinner rest mid w) (by simpa using hx)]
      exact setMatchWinner_find? rest mid w m hfind

theorem find?_append_left {p : Match → Bool} (l1 l2 : List Match) (m : Match)
    (h : l1.find? p = some m) : (l1 ++ l2).find? p = some m := by
  rw [List.find?_append, h]
  rfl

theorem setMatchWinner_length : ∀ (ms : List Match) (mid : Nat) (w : String),
    (setMatchWinner ms mid w).length = ms.length
  | [], _, _ => rfl
  | x :: rest, mid, w => by
    rw [setMatchWinner]
    by_cases hx : x.id == mid
    · rw [if_pos hx]; rfl
    · rw [if_neg hx]
      simpa [List.length_cons] using setMatchWinner_length rest mid w

theorem setMatchWinner_getElem? : ∀ (ms : List Match) (mid : Nat) (w : String)
    (i : Nat) (mo m0 : Match), ms[i]? = some mo → truthyStr mo.winner = true →
    ms.find? (fun x => x.id == mid) = some m0 → truthyStr m0.winner = false →
    (setMatchWinner ms mid w)[i]? = some mo
  | [], _, _, i, mo, m0 => by simp
  | x :: rest, mid, w, i, mo, m0 => by
    intro hget htr hfind hfalse
    by_cases hx : x.id == mid
    · rw [List.find?_cons_of_pos (p := fun y => y.id == mid) rest hx] at hfind
      injection hfind with h0
      rw [setMatchWinner, if_pos hx]
      match i with
      | 0 =>
        have h1 : x = mo := by simpa using hget
        rw [← h1] at htr
        rw [← h0] at hfalse
        rw [htr] at hfalse
        exact absurd hfalse (by simp)
      | i + 1 => simpa using hget
    · rw [List.find?_cons_of_neg (p := fun y => y.id == mid) (a := x) rest
        (by simpa using hx)] at hfind
      rw [setMatchWinner, if_neg hx]
      match i with
      | 0 => simpa using hget
      | i + 1 =>
        have := setMatchWinner_getElem? rest mid w i mo m0 (by simpa using hget)
          htr hfind hfalse
        simpa using this

theorem matchresult_ok_inv (t : Tournament) (mid : Nat) (wt lt : String) (nid : Nat)
    (t2 : Tournament) (h : matchresult (some t) mid wt lt nid = Except.ok t2) :
    ∃ m, find_match t mid = some m ∧ truthyStr m.winner = false ∧
      wt ∈ t.teams.map Prod.fst ∧ lt ∈ t.teams.map Prod.fst ∧
      t2 = try_pair_pending
        { t with matches' := setMatchWinner t.matches' mid wt,
                 pending_lower := t.pending_lower ++ [lt],
                 pending_upper := t.pending_upper ++ [wt] } nid := by
  cases hfm : find_match t mid with
  | none =>
    simp only [matchresult, hfm] at h
    exact Except.noConfusion h
  | some m =>
    simp only [matchresult, hfm] at h
    by_cases hw : truthyStr m.winner = true
    · rw [if_pos hw] at h
      exact Except.noConfusion h
    · rw [if_neg hw] at h
      by_cases hv : wt ∉ t.teams.map Prod.fst ∨ lt ∉ t.teams.map Prod.fst
      · rw [if_pos hv] at h
        exact Except.noConfusion h
      · rw [if_neg hv] at h
        push_neg at hv
        injection h with h2
        exact ⟨m, rfl, by simpa using hw, hv.1, hv.2, h2.symm⟩

/-! ### Claim theorems -/

/-- C1: the claim states that after A beats B in the 3-team tournament
(A vs B, bye for C), B gets a lower bye and re-enters `pendingUpper`, A
enters `pendingUpper` alongside the bye-winner C, and the next pairing pass
produces an upper match A vs C, bye winners auto-advancing into the next
`pendingUpper` cycle.  The code does not do this: `starttourney` stores
empty pending pools and nothing ever re-queues the recorded bye winner C
(nor the lower-bye winner B), so the pairing pass after the report gives A
an upper bye instead of the match A vs C, no match between A and C is ever
created, and both pools end empty.  This theorem evaluates the embedded
code on exactly that scenario. -/
theorem c1_bye_winner_never_requeued :
    starttourney (some demo0) shufCBA 0 = Except.ok demo1
  ∧ matchresult (some demo1) 0 "A" "B" 2 = Except.ok demo2
  ∧ demo2.pending_upper = [] ∧ demo2.pending_lower = []
  ∧ (∀ m ∈ demo2.matches',
      ¬(m.teamA = "A" ∧ m.teamB = some "C") ∧ ¬(m.teamA = "C" ∧ m.teamB = some "A"))
  ∧ (∃ m ∈ demo2.matches', m.bracket = "upper" ∧ m.bye = true ∧ m.teamA = "A")
  ∧ (∃ m ∈ demo2.matches', m.bracket = "lower" ∧ m.bye = true ∧ m.teamA = "B")
  ∧ "B" ∈ aliveTeams demo2
  ∧ demo2.status = "running" := by
  refine ⟨rfl, rfl, rfl, rfl, ?_, ?_, ?_, ?_, rfl⟩ <;> decide

/-- C2 counterexample: on `demo1`, match 0 is A vs B and unresolved; the
names "C" and "A" are existing teams of the tournament but are not the two
teams recorded on match 0; the claim says this call fails with `Validation`
and performs no mutation, yet the code accepts it, records "C" as the
winner of match 0, and pairs the pools. -/
theorem c2_counterexample :
    find_match demo1 0 = some mAB
  ∧ "C" ∈ demo1.teams.map Prod.fst ∧ "A" ∈ demo1.teams.map Prod.fst
  ∧ matchresult (some demo1) 0 "C" "A" 2 = Except.ok demo2c
  ∧ matchresult (some demo1) 0 "C" "A" 2 ≠ Except.error Err.Validation
  ∧ find_match demo2c 0 = some { mAB with winner := some "C" } := by
  refine ⟨rfl, by decide, by decide, rfl, ?_, rfl⟩
  intro h
  exact Except.noConfusion ((rfl :
    Except.ok demo2c = matchresult (some demo1) 0 "C" "A" 2).trans h)

/-- C2 (amended): for a `reportResult` call on an existing, unresolved
match, the code's validation only checks that `winnerTeam` and `loserTeam`
are existing team names of the tournament; it never compares them with the
two teams recorded on the match, so the call fails with `Validation`
exactly when one of the names is not an existing team, and succeeds
(recording `winnerTeam` as the match winner and mutating the pools)
whenever both names exist - even when they are not the match's teams. -/
theorem c2_amended (t : Tournament) (mid : Nat) (wt lt : String) (nid : Nat)
    (m : Match) (hm : find_match t mid = some m)
    (hw : truthyStr m.winner = false) :
    (matchresult (some t) mid wt lt nid = Except.error Err.Validation ↔
      (wt ∉ t.teams.map Prod.fst ∨ lt ∉ t.teams.map Prod.fst))
  ∧ (wt ∈ t.teams.map Prod.fst → lt ∈ t.teams.map Prod.fst →
      matchresult (some t) mid wt lt nid = Except.ok (try_pair_pending
        { t with matches' := setMatchWinner t.matches' mid wt,
                 pending_lower := t.pending_lower ++ [lt],
                 pending_upper := t.pending_upper ++ [wt] } nid)) := by
  have hw0 : ¬ (truthyStr m.winner = true) := by simp [hw]
  by_cases hv : wt ∉ t.teams.map Prod.fst ∨ lt ∉ t.teams.map Prod.fst
  · constructor
    · constructor
      · intro _
        exact hv
      · intro _
        simp only [matchresult, hm, if_neg hw0, if_pos hv]
    · intro h1 h2
      rcases hv with hv | hv
      · exact absurd h1 hv
      · exact absurd h2 hv
  · constructor
    · constructor
      · intro h
        simp only [matchresult, hm, if_neg hw0, if_neg hv] at h
        exact Except.noConfusion h
      · intro h
        exact absurd h hv
    · intro _ _
      simp only [matchresult, hm, if_neg hw0, if_neg hv]

/-- C2 witness: the amended theorem at a concrete input: a name that is not
a team of `demo1` makes the call fail with `Validation`, and two existing
names not on the match make it succeed. -/
theorem c2_witness :
    (matchresult (some demo1) 0 "ZZ" "B" 2 = Except.error Err.Validation ↔
      ("ZZ" ∉ demo1.teams.map Prod.fst ∨ "B" ∉ demo1.teams.map Prod.fst))
  ∧ ("C" ∈ demo1.teams.map Prod.fst → "A" ∈ demo1.teams.map Prod.fst →
      matchresult (some demo1) 0 "C" "A" 2 = Except.ok (try_pair_pending
        { demo1 with matches' := setMatchWinner demo1.matches' 0 "C",
                     pending_lower := demo1.pending_lower ++ ["A"],
                     pending_upper := demo1.pending_upper ++ ["C"] } 2)) :=
  ⟨(c2_amended demo1 0 "ZZ" "B" 2 mAB rfl rfl).1,
   (c2_amended demo1 0 "C" "A" 2 mAB rfl rfl).2⟩

/-- C3 counterexample: `demoF` has status `"finished"` but an unresolved
match; the claim says any `reportResult` must fail with `InvalidState` and
mutate nothing, yet the code accepts the report and mutates the tournament.
-/
theorem c3_counterexample :
    demoF.status = "finished"
  ∧ matchresult (some demoF) 0 "A" "B" 2 = Except.ok demo2F
  ∧ demo2F ≠ demoF
  ∧ matchresult (some demoF) 0 "A" "B" 2 ≠ Except.error Err.InvalidState := by
  refine ⟨rfl, rfl, by decide, ?_⟩
  intro h
  exact Except.noConfusion ((rfl :
    Except.ok demo2F = matchresult (some demoF) 0 "A" "B" 2).trans h)

/-- C3 (amended): `matchresult` never consults the tournament status, so a
`finished` tournament is not terminal: a report on an existing unresolved
match with two existing team names succeeds and records the winner on the
match. -/
theorem c3_amended (t : Tournament) (mid : Nat) (wt lt : String) (nid : Nat)
    (m : Match) (_hstatus : t.status = "finished")
    (hm : find_match t mid = some m) (hw : truthyStr m.winner = false)
    (hwt : wt ∈ t.teams.map Prod.fst) (hlt : lt ∈ t.teams.map Prod.fst) :
    ∃ t2, matchresult (some t) mid wt lt nid = Except.ok t2 ∧
      find_match t2 mid = some { m with winner := some wt } := by
  have hw0 : ¬ (truthyStr m.winner = true) := by simp [hw]
  have hv : ¬ (wt ∉ t.teams.map Prod.fst ∨ lt ∉ t.teams.map Prod.fst) := by
    push_neg
    exact ⟨hwt, hlt⟩
  refine ⟨try_pair_pending
    { t with matches' := setMatchWinner t.matches' mid wt,
             pending_lower := t.pending_lower ++ [lt],
             pending_upper := t.pending_upper ++ [wt] } nid, ?_, ?_⟩
  · simp only [matchresult, hm, if_neg hw0, if_neg hv]
  unfold find_match at hm ⊢
  rw [try_pair_pending_matches]
  exact find?_append_left _ _ _ (find?_append_left _ _ _
    (setMatchWinner_find? t.matches' mid wt m hm))

/-- C3 witness: the amended theorem applied to `demoF`. -/
theorem c3_witness :
    demoF.status = "finished"
  ∧ ∃ t2, matchresult (some demoF) 0 "A" "B" 2 = Except.ok t2 ∧
      find_match t2 0 = some { mAB with winner := some "A" } :=
  ⟨rfl, c3_amended demoF 0 "A" "B" 2 mAB rfl rfl rfl (by decide) (by decide)⟩

/-- C7 counterexample: `demo1` is `running` (not `setup`) and has 3 teams;
the claim says `start` must fail with `InvalidState` when the status is not
`setup`, yet the code starts it again. -/
theorem c7_counterexample :
    demo1.status = "running"
  ∧ starttourney (some demo1) (fun l => l) 10 = Except.ok demo1S
  ∧ starttourney (some demo1) (fun l => l) 10 ≠ Except.error Err.InvalidState := by
  refine ⟨rfl, rfl, ?_⟩
  intro h
  exact Except.noConfusion ((rfl :
    Except.ok demo1S = starttourney (some demo1) (fun l => l) 10).trans h)

/-- C7 (amended): `start` fails with `NotFound` when the tournament is
absent and with `InvalidState` exactly when it has fewer than 2 teams; the
tournament status is never checked.  Otherwise it pairs the shuffled full
team list into upper-tagged matches, appends those matches and their round
to history, sets both pending pools empty and sets status to `running`. -/
theorem c7_amended (t : Tournament) (shuffle : List String → List String)
    (nid : Nat) :
    (starttourney (some t) shuffle nid = Except.error Err.InvalidState ↔
      (t.teams.map Prod.fst).length < 2)
  ∧ (2 ≤ (t.teams.map Prod.fst).length →
      starttourney (some t) shuffle nid = Except.ok { t with
        matches' := t.matches' ++
          create_round_matches (shuffle (t.teams.map Prod.fst)) nid,
        status := "running", pending_upper := [], pending_lower := [],
        upper_rounds := t.upper_rounds ++
          [(create_round_matches (shuffle (t.teams.map Prod.fst)) nid).map
            (fun m => m.id)] })
  ∧ starttourney none shuffle nid = Except.error Err.NotFound := by
  by_cases h2 : (t.teams.map Prod.fst).length < 2
  · refine ⟨⟨fun _ => h2, fun _ => ?_⟩, fun hle => absurd h2 (by omega), rfl⟩
    simp only [starttourney, if_pos h2]
  · refine ⟨⟨fun h => ?_, fun hlt => absurd hlt h2⟩, fun _ => ?_, rfl⟩
    · simp only [starttourney, if_neg h2] at h
      exact Except.noConfusion h
    · simp only [starttourney, if_neg h2]

/-- C7 witness: the amended theorem applied to `demo0` (3 teams, setup):
the start succeeds and produces `demo1`. -/
theorem c7_witness :
    (starttourney (some demo0) shufCBA 0 = Except.error Err.InvalidState ↔
      (demo0.teams.map Prod.fst).length < 2)
  ∧ starttourney (some demo0) shufCBA 0 = Except.ok demo1 :=
  ⟨(c7_amended demo0 shufCBA 0).1,
   ((c7_amended demo0 shufCBA 0).2.1 (by decide)).trans (by rfl)⟩

/-- C8 counterexample: `demo1` is `running`, yet `addTeam` succeeds; the
claim says it is only valid while the status is `setup`. -/
theorem c8_counterexample :
    demo1.status = "running"
  ∧ addteam (some demo1) "D" [9] = Except.ok demo1D
  ∧ (∀ e, addteam (some demo1) "D" [9] ≠ Except.error e) := by
  refine ⟨rfl, rfl, ?_⟩
  intro e h
  exact Except.noConfusion ((rfl :
    Except.ok demo1D = addteam (some demo1) "D" [9]).trans h)

/-- C8 (amended): `addTeam` fails with `NotFound` exactly when the
tournament is absent; the tournament status is never checked, so the call
succeeds in any status; adding a team under an existing name overwrites
that team's roster entirely (replace semantics, not merge) and leaves every
other team's roster unchanged. -/
theorem c8_amended (t : Tournament) (nm : String) (ids : List Nat) :
    addteam none nm ids = Except.error Err.NotFound
  ∧ addteam (some t) nm ids =
      Except.ok { t with teams := setTeam t.teams nm ids }
  ∧ lookupTeam (setTeam t.teams nm ids) nm = some ids
  ∧ (∀ k, k ≠ nm → lookupTeam (setTeam t.teams nm ids) k = lookupTeam t.teams k) :=
  ⟨rfl, rfl, lookupTeam_setTeam_self t.teams nm ids,
   fun k hk => lookupTeam_setTeam_other t.teams nm k ids hk⟩

/-- C8 witness: the amended theorem applied to `demo1` and team "B": the
roster of "B" is replaced by `[7, 8]` while "A" keeps its roster. -/
theorem c8_witness :
    addteam (some demo1) "B" [7, 8] =
      Except.ok { demo1 with teams := setTeam demo1.teams "B" [7, 8] }
  ∧ lookupTeam (setTeam demo1.teams "B" [7, 8]) "B" = some [7, 8]
  ∧ lookupTeam (setTeam demo1.teams "B" [7, 8]) "A" = lookupTeam demo1.teams "A" :=
  ⟨(c8_amended demo1 "B" [7, 8]).2.1,
   (c8_amended demo1 "B" [7, 8]).2.2.1,
   (c8_amended demo1 "B" [7, 8]).2.2.2 "A" (by decide)⟩

/-- C9 counterexample: in `demoE`, match 0 already has its winner set (to
the team named `""`); the claim says any further report on that match id
returns `AlreadyResolved` and the winner never changes, yet Python
truthiness treats `""` as unset: the code accepts a second report and
overwrites the recorded winner with `"X"`. -/
theorem c9_counterexample :
    find_match demoE 0 = some { id := 0, teamA := "X", teamB := some "",
                                winner := some "", bracket := "upper",
                                bye := false }
  ∧ matchresult (some demoE) 0 "X" "" 7 = Except.ok demoE2
  ∧ matchresult (some demoE) 0 "X" "" 7 ≠ Except.error Err.AlreadyResolved
  ∧ find_match demoE2 0 = some { id := 0, teamA := "X", teamB := some "",
                                 winner := some "X", bracket := "upper",
                                 bye := false } := by
  refine ⟨rfl, rfl, ?_, rfl⟩
  intro h
  exact Except.noConfusion ((rfl :
    Except.ok demoE2 = matchresult (some demoE) 0 "X" "" 7).trans h)

/-- C9 (amended): a match whose winner is set to a truthy (non-empty) name
rejects any further report with `AlreadyResolved` (so nothing is mutated),
and a successful report never changes any match that already has a truthy
winner: every such match is preserved unchanged at its position.  A winner
recorded as the empty-string team name is treated as unset by the code's
truthiness check and can be overwritten (see the counterexample). -/
theorem c9_amended :
    (∀ (t : Tournament) (mid : Nat) (wt lt : String) (nid : Nat) (m : Match),
      find_match t mid = some m → truthyStr m.winner = true →
      matchresult (some t) mid wt lt nid = Except.error Err.AlreadyResolved)
  ∧ (∀ (t : Tournament) (mid : Nat) (wt lt : String) (nid : Nat)
      (t2 : Tournament), matchresult (some t) mid wt lt nid = Except.ok t2 →
      ∀ (i : Nat) (mo : Match), t.matches'[i]? = some mo →
        truthyStr mo.winner = true → t2.matches'[i]? = some mo) := by
  constructor
  · intro t mid wt lt nid m hm hw
    simp only [matchresult, hm, if_pos hw]
  · intro t mid wt lt nid t2 hok i mo hget htr
    obtain ⟨m, hm, hw, _, _, ht2⟩ := matchresult_ok_inv t mid wt lt nid t2 hok
    subst ht2
    rw [try_pair_pending_matches]
    simp only [pairPendingState]
    have h1 : (setMatchWinner t.matches' mid wt)[i]? = some mo :=
      setMatchWinner_getElem? t.matches' mid wt i mo m hget htr hm hw
    have hlen : i < (setMatchWinner t.matches' mid wt).length := by
      rcases List.getElem?_eq_some_iff.mp h1 with ⟨hl, _⟩
      exact hl
    rw [List.getElem?_append_left (by rw [List.length_append]; omega),
      List.getElem?_append_left hlen]
    exact h1

/-- C9 witness: the amended theorem at concrete inputs: the second report
on the resolved match 0 of `demo2` (winner `"A"`, truthy) is rejected, and
the successful report on `demo1` preserves the resolved bye match at index
1. -/
theorem c9_witness :
    matchresult (some demo2) 0 "A" "B" 9 = Except.error Err.AlreadyResolved
  ∧ demo2.matches'[1]? = some { id := 1, teamA := "C", teamB := none,
                                winner := some "C", bracket := "upper",
                                bye := true } :=
  ⟨c9_amended.1 demo2 0 "A" "B" 9 { mAB with winner := some "A" } rfl rfl,
   c9_amended.2 demo1 0 "A" "B" 2 demo2 rfl 1
     { id := 1, teamA := "C", teamB := none, winner := some "C",
       bracket := "upper", bye := true } rfl rfl⟩

/-- C10: after every completed operation - a successful `start` (which
stores empty pools) and every successful `reportResult` (whose
`try_pair_pending` pass drains both pools fully, giving a bye to a single
leftover team) - both pending pools are empty, so no team is ever carried
in a pending pool across operations. -/
theorem c10_pools_empty :
    (∀ (ot : Option Tournament) (shuffle : List String → List String)
      (nid : Nat) (t2 : Tournament), starttourney ot shuffle nid = Except.ok t2 →
      t2.pending_upper = [] ∧ t2.pending_lower = [])
  ∧ (∀ (ot : Option Tournament) (mid : Nat) (wt lt : String) (nid : Nat)
      (t2 : Tournament), matchresult ot mid wt lt nid = Except.ok t2 →
      t2.pending_upper = [] ∧ t2.pending_lower = []) := by
  constructor
  · intro ot shuffle nid t2 h
    cases ot with
    | none => exact Except.noConfusion h
    | some t =>
      by_cases h2 : (t.teams.map Prod.fst).length < 2
      · simp only [starttourney, if_pos h2] at h
        exact Except.noConfusion h
      · simp only [starttourney, if_neg h2] at h
        injection h with h3
        rw [← h3]
        exact ⟨rfl, rfl⟩
  · intro ot mid wt lt nid t2 h
    cases ot with
    | none => exact Except.noConfusion h
    | some t =>
      obtain ⟨m, _, _, _, _, ht2⟩ := matchresult_ok_inv t mid wt lt nid t2 h
      rw [ht2]
      exact try_pair_pending_pools _ nid

/-- C10 witness: the pools of `demo1` (after `start`) and of `demo2` (after
a successful report) are both empty. -/
theorem c10_witness :
    (demo1.pending_upper = [] ∧ demo1.pending_lower = [])
  ∧ (demo2.pending_upper = [] ∧ demo2.pending_lower = []) :=
  ⟨c10_pools_empty.1 (some demo0) shufCBA 0 demo1 rfl,
   c10_pools_empty.2 (some demo1) 0 "A" "B" 2 demo2 rfl⟩

theorem mem_eliminatedTeams (ms : List Match) (tm : String) :
    tm ∈ eliminatedTeams ms ↔
      ∃ m ∈ ms, (m.bracket = "lower" ∧ m.winner ≠ none ∧ m.bye = false) ∧
        loserOfMatch m = some tm ∧ tm ≠ "" := by
  unfold eliminatedTeams
  rw [List.mem_filterMap]
  constructor
  · rintro ⟨m, hm, hf⟩
    by_cases hc : m.bracket = "lower" ∧ m.winner ≠ none ∧ m.bye = false
    · rw [if_pos hc] at hf
      cases hl : loserOfMatch m with
      | none =>
        simp only [hl] at hf
        exact Option.noConfusion hf
      | some l =>
        simp only [hl] at hf
        by_cases hl0 : l = ""
        · rw [if_pos hl0] at hf
          exact absurd hf (by simp)
        · rw [if_neg hl0] at hf
          injection hf with hf
          subst hf
          exact ⟨m, hm, hc, hl, hl0⟩
    · rw [if_neg hc] at hf
      exact absurd hf (by simp)
  · rintro ⟨m, hm, hc, hl, hl0⟩
    refine ⟨m, hm, ?_⟩
    rw [if_pos hc]
    simp only [hl]
    rw [if_neg hl0]

/-- C4 counterexample: in `demoL`, the team named `""` is the losing side
of a resolved, non-bye, lower-tagged match, so by the claim it must not be
in `aliveTeams`; but the code's `if loser:` guard skips a falsy (empty)
loser name, so the team stays alive. -/
theorem c4_counterexample :
    (∃ m ∈ demoL.matches', m.bracket = "lower" ∧ m.winner ≠ none ∧
      m.bye = false ∧ loserOfMatch m = some "")
  ∧ "" ∈ demoL.teams.map Prod.fst
  ∧ "" ∈ aliveTeams demoL := by
  refine ⟨?_, ?_, ?_⟩ <;> decide

/-- C4 (amended): for every team with a non-empty name, `aliveTeams`
contains it exactly when it is a team of the tournament that is not the
losing side of any resolved, non-bye, lower-tagged match (upper losses and
byes never eliminate); a team named `""` is never eliminated because the
code skips a falsy loser.  After a pairing pass, if exactly one team is
alive, the status is set to `finished` and the champion to that team. -/
theorem c4_amended :
    (∀ (t : Tournament) (tm : String), tm ≠ "" →
      (tm ∈ aliveTeams t ↔ (tm ∈ t.teams.map Prod.fst ∧
        ¬ ∃ m ∈ t.matches', (m.bracket = "lower" ∧ m.winner ≠ none ∧
          m.bye = false) ∧ loserOfMatch m = some tm)))
  ∧ (∀ (t : Tournament) (nid : Nat) (c : String),
      aliveTeams (pairPendingState t nid) = [c] →
      (try_pair_pending t nid).status = "finished" ∧
      (try_pair_pending t nid).champion = some c) := by
  constructor
  · intro t tm htm
    unfold aliveTeams
    rw [List.mem_filter]
    constructor
    · rintro ⟨hmem, hdec⟩
      refine ⟨hmem, ?_⟩
      rintro ⟨m, hm, hc, hl⟩
      rw [decide_eq_true_eq] at hdec
      exact hdec ((mem_eliminatedTeams _ _).mpr ⟨m, hm, hc, hl, htm⟩)
    · rintro ⟨hmem, hnc⟩
      refine ⟨hmem, ?_⟩
      rw [decide_eq_true_eq]
      intro hel
      rcases (mem_eliminatedTeams _ _).mp hel with ⟨m, hm, hc, hl, _⟩
      exact hnc ⟨m, hm, hc, hl⟩
  · intro t nid c h
    exact try_pair_pending_finished t nid c h

/-- C4 witness: the amended theorem at concrete inputs: team "B" of
`demoW4` has a recorded non-bye lower loss, and the pairing pass on
`demoW4` (where only "A" is alive) finishes the tournament with champion
"A". -/
theorem c4_witness :
    ("B" ∈ aliveTeams demoW4 ↔ ("B" ∈ demoW4.teams.map Prod.fst ∧
      ¬ ∃ m ∈ demoW4.matches', (m.bracket = "lower" ∧ m.winner ≠ none ∧
        m.bye = false) ∧ loserOfMatch m = some "B"))
  ∧ ((try_pair_pending demoW4 5).status = "finished" ∧
     (try_pair_pending demoW4 5).champion = some "A") :=
  ⟨c4_amended.1 demoW4 "B" (by decide),
   c4_amended.2 demoW4 5 "A" (by decide)⟩

theorem pairTeams_length (br : String) : ∀ (l : List String) (i : Nat),
    (pairTeams br i l).length = (l.length + 1) / 2
  | [], i => by simp [pairTeams]
  | [a], i => by simp [pairTeams]
  | a :: b :: rest, i => by
    simp only [pairTeams, List.length_cons, pairTeams_length br rest (i + 1)]
    omega

theorem pairTeams_countP_bye (br : String) : ∀ (l : List String) (i : Nat),
    (pairTeams br i l).countP (fun m => m.bye) = l.length % 2
  | [], i => by simp [pairTeams]
  | [a], i => by simp [pairTeams, List.countP_cons]
  | a :: b :: rest, i => by
    simp only [pairTeams, List.countP_cons, pairTeams_countP_bye br rest (i + 1),
      List.length_cons]
    simp
    omega

theorem pairTeams_countP_appears_of_not_mem (br tm : String) :
    ∀ (l : List String) (i : Nat), tm ∉ l →
      (pairTeams br i l).countP (appearsIn tm) = 0
  | [], i, h => by simp [pairTeams]
  | [a], i, h => by
    have ha : ¬ (a = tm) := by simpa [eq_comm] using h
    simp [pairTeams, appearsIn, List.countP_cons, ha]
  | a :: b :: rest, i, h => by
    have ha : ¬ (a = tm) := fun hc => h (by simp [hc])
    have hb : ¬ (b = tm) := fun hc => h (by simp [hc])
    have hr : tm ∉ rest := fun hc => h (by simp [hc])
    simp only [pairTeams, List.countP_cons,
      pairTeams_countP_appears_of_not_mem br tm rest (i + 1) hr]
    simp [appearsIn, ha, hb]

theorem pairTeams_countP_appears_of_mem (br tm : String) :
    ∀ (l : List String) (i : Nat), l.Nodup → tm ∈ l →
      (pairTeams br i l).countP (appearsIn tm) = 1
  | [], _, _, hmem => absurd hmem (by simp)
  | [a], i, _, hmem => by
    have : tm = a := by simpa using hmem
    subst this
    simp [pairTeams, appearsIn, List.countP_cons]
  | a :: b :: rest, i, hnd, hmem => by
    have hanb : a ∉ b :: rest ∧ (b ∉ rest ∧ rest.Nodup) := by
      simpa [List.nodup_cons] using hnd
    have hab : ¬ (a = b) := fun hc => hanb.1 (by simp [hc])
    have har : a ∉ rest := fun hc => hanb.1 (by simp [hc])
    have hbr : b ∉ rest := hanb.2.1
    simp only [pairTeams, List.countP_cons]
    rcases (by simpa using hmem : tm = a ∨ tm = b ∨ tm ∈ rest) with h | h | h
    · subst h
      rw [pairTeams_countP_appears_of_not_mem br tm rest (i + 1) har]
      simp [appearsIn]
    · subst h
      rw [pairTeams_countP_appears_of_not_mem br tm rest (i + 1) hbr]
      simp [appearsIn]
    · have hat : ¬ (a = tm) := fun hc => har (hc ▸ h)
      have hbt : ¬ (b = tm) := fun hc => hbr (hc ▸ h)
      rw [pairTeams_countP_appears_of_mem br tm rest (i + 1) hanb.2.2 h]
      simp [appearsIn, hat, hbt]

theorem pairTeams_no_self_pair (br : String) :
    ∀ (l : List String) (i : Nat), l.Nodup →
      ∀ m ∈ pairTeams br i l, ¬ (m.teamB = some m.teamA)
  | [], i, _, m, hm => absurd hm (by simp [pairTeams])
  | [a], i, _, m, hm => by
    have : m = { id := i, teamA := a, teamB := none, winner := some a,
                 bracket := br, bye := true } := by simpa [pairTeams] using hm
    subst this
    simp
  | a :: b :: rest, i, hnd, m, hm => by
    have hanb : a ∉ b :: rest ∧ (b ∉ rest ∧ rest.Nodup) := by
      simpa [List.nodup_cons] using hnd
    have hab : ¬ (a = b) := fun hc => hanb.1 (by simp [hc])
    rcases (by simpa [pairTeams] using hm :
        m = { id := i, teamA := a, teamB := some b, winner := none,
              bracket := br, bye := false } ∨ m ∈ pairTeams br (i + 1) rest)
      with h | h
    · subst h
      simpa using fun hc => hab hc.symm
    · exact pairTeams_no_self_pair br rest (i + 1) hanb.2.2 m h

theorem pairTeams_bye_shape (br : String) :
    ∀ (l : List String) (i : Nat), ∀ m ∈ pairTeams br i l,
      m.bye = true → m.teamB = none ∧ m.winner = some m.teamA
  | [], i, m, hm => absurd hm (by simp [pairTeams])
  | [a], i, m, hm => by
    have : m = { id := i, teamA := a, teamB := none, winner := some a,
                 bracket := br, bye := true } := by simpa [pairTeams] using hm
    subst this
    intro _
    exact ⟨rfl, rfl⟩
  | a :: b :: rest, i, m, hm => by
    rcases (by simpa [pairTeams] using hm :
        m = { id := i, teamA := a, teamB := some b, winner := none,
              bracket := br, bye := false } ∨ m ∈ pairTeams br (i + 1) rest)
      with h | h
    · subst h
      intro hbye
      exact absurd hbye (by simp)
    · exact pairTeams_bye_shape br rest (i + 1) m h

/-- C5: for every pool of distinct team names, the pairing loop (both the
pool-draining form used by `try_pair_pending` and `create_round_matches`,
which shuffles - modelled by quantifying over the input order - and pops
from the end) produces `⌈N/2⌉` matches of which exactly one is a bye iff
`N` is odd; each input team appears in exactly one output match, no team is
paired with itself, and a bye match has the unpaired team as `teamA`, no
`teamB`, and `winner` pre-set to that team. -/
theorem c5_pairing (pool : List String) (hnd : pool.Nodup) (br : String)
    (nid : Nat) :
    ((pairTeams br nid pool).length = (pool.length + 1) / 2
      ∧ (create_round_matches pool nid).length = (pool.length + 1) / 2)
  ∧ ((pairTeams br nid pool).countP (fun m => m.bye) = pool.length % 2
      ∧ (create_round_matches pool nid).countP (fun m => m.bye) = pool.length % 2)
  ∧ ((create_round_matches pool nid).countP (fun m => m.bye) = 1 ↔
      pool.length % 2 = 1)
  ∧ (∀ tm ∈ pool, (pairTeams br nid pool).countP (appearsIn tm) = 1
      ∧ (create_round_matches pool nid).countP (appearsIn tm) = 1)
  ∧ (∀ m ∈ pairTeams br nid pool, ¬ (m.teamB = some m.teamA))
  ∧ (∀ m ∈ create_round_matches pool nid, ¬ (m.teamB = some m.teamA))
  ∧ (∀ m ∈ pairTeams br nid pool,
      m.bye = true → m.teamB = none ∧ m.winner = some m.teamA)
  ∧ (∀ m ∈ create_round_matches pool nid,
      m.bye = true → m.teamB = none ∧ m.winner = some m.teamA) := by
  have hndr : pool.reverse.Nodup := by simpa using hnd
  refine ⟨⟨pairTeams_length br pool nid, ?_⟩, ⟨pairTeams_countP_bye br pool nid, ?_⟩,
    ?_, ?_, pairTeams_no_self_pair br pool nid hnd, ?_,
    pairTeams_bye_shape br pool nid, ?_⟩
  · rw [create_round_matches, pairTeams_length, List.length_reverse]
  · rw [create_round_matches, pairTeams_countP_bye, List.length_reverse]
  · rw [create_round_matches, pairTeams_countP_bye, List.length_reverse]
  · intro tm htm
    exact ⟨pairTeams_countP_appears_of_mem br tm pool nid hnd htm,
      pairTeams_countP_appears_of_mem "upper" tm pool.reverse nid hndr
        (by simpa using htm)⟩
  · exact pairTeams_no_self_pair "upper" pool.reverse nid hndr
  · exact pairTeams_bye_shape "upper" pool.reverse nid

/-- C5 witness: the pairing theorem at the concrete pool
`["C", "B", "A"]`. -/
theorem c5_witness :
    (pairTeams "upper" 0 ["C", "B", "A"]).length = 2
  ∧ (create_round_matches ["C", "B", "A"] 0).countP (fun m => m.bye) = 1
  ∧ (create_round_matches ["C", "B", "A"] 0).countP (appearsIn "B") = 1 := by
  have h := c5_pairing ["C", "B", "A"] (by decide) "upper" 0
  exact ⟨h.1.1, h.2.1.2, (h.2.2.2.1 "B" (by decide)).2⟩

theorem elo_apply_ne (w : List Nat) (acc : Nat → PlayerRec) (pu : Nat × Int)
    (p : Nat) (h : p ≠ pu.1) : elo_apply w acc pu p = acc p := by
  unfold elo_apply
  split
  · exact Function.update_noteq h _ acc
  · exact Function.update_noteq h _ acc

theorem elo_apply_self (w : List Nat) (acc : Nat → PlayerRec) (p : Nat) (v : Int) :
    elo_apply w acc (p, v) p =
      (if p ∈ w then
        { elo := v, wins := (acc p).wins + 1, losses := (acc p).losses }
       else
        { elo := v, wins := (acc p).wins, losses := (acc p).losses + 1 } :
        PlayerRec) := by
  unfold elo_apply
  by_cases hw : p ∈ w
  · rw [if_pos (show (p, v).1 ∈ w from hw), if_pos hw]
    exact Function.update_same p _ acc
  · rw [if_neg (show (p, v).1 ∉ w from hw), if_neg hw]
    exact Function.update_same p _ acc

theorem foldl_elo_apply_not_mem (w : List Nat) :
    ∀ (xs : List (Nat × Int)) (acc : Nat → PlayerRec) (p : Nat),
      p ∉ xs.map Prod.fst → (xs.foldl (elo_apply w) acc) p = acc p
  | [], _, _, _ => rfl
  | (q, u) :: rest, acc, p, hp => by
    have hq : ¬ (p = q) := fun hc => hp (by simp [hc])
    have hr : p ∉ rest.map Prod.fst := fun hc => hp (by simp [hc])
    rw [List.foldl_cons, foldl_elo_apply_not_mem w rest _ p hr]
    exact elo_apply_ne w acc (q, u) p hq

theorem foldl_elo_apply_mem (w : List Nat) :
    ∀ (xs : List (Nat × Int)) (acc : Nat → PlayerRec) (p : Nat) (v : Int),
      (xs.map Prod.fst).Nodup → (p, v) ∈ xs →
      (xs.foldl (elo_apply w) acc) p =
        (if p ∈ w then
          { elo := v, wins := (acc p).wins + 1, losses := (acc p).losses }
         else
          { elo := v, wins := (acc p).wins, losses := (acc p).losses + 1 } :
          PlayerRec)
  | [], _, _, _, _, hmem => absurd hmem (by simp)
  | (q, u) :: rest, acc, p, v, hnd, hmem => by
    have hnd2 : q ∉ rest.map Prod.fst ∧ (rest.map Prod.fst).Nodup := by
      simpa [List.nodup_cons] using hnd
    rw [List.foldl_cons]
    rcases (by simpa using hmem : ((p, v) = (q, u)) ∨ (p, v) ∈ rest) with h | h
    · have hp : p = q := congrArg Prod.fst h
      have hv : v = u := congrArg Prod.snd h
      subst hp
      subst hv
      rw [foldl_elo_apply_not_mem w rest _ p hnd2.1]
      exact elo_apply_self w acc p v
    · have hpr : p ∈ rest.map Prod.fst := by
        simpa using List.mem_map_of_mem Prod.fst h
      have hpq : ¬ (p = q) := fun hc => hnd2.1 (hc ▸ hpr)
      rw [foldl_elo_apply_mem w rest (elo_apply w acc (q, u)) p v hnd2.2 h,
        elo_apply_ne w acc (q, u) p hpq]

theorem map_fst_pairs (g : Nat → Int) : ∀ (ids : List Nat),
    ((ids.map fun pid => (pid, g pid)).map Prod.fst) = ids
  | [] => rfl
  | a :: r => by simp [map_fst_pairs g r]

/-- Characterization of `adjust_elo_for_match` for disjoint, duplicate-free
teams: each winner's document is replaced by the batch-computed elo with a
win increment, each loser's by the batch-computed elo with a loss
increment, and all other players are untouched. -/
theorem adjust_elo_spec (tbl : Nat → PlayerRec) (w l : List Nat) (k : ℝ)
    (hwnd : w.Nodup) (hlnd : l.Nodup) (hdisj : ∀ p, p ∈ w → p ∉ l) :
    (∀ p ∈ w, adjust_elo_for_match tbl w l k p =
      { elo := pyround (((tbl p).elo : ℝ) + k * (1 - expected_win tbl w l)),
        wins := (tbl p).wins + 1, losses := (tbl p).losses })
  ∧ (∀ p ∈ l, adjust_elo_for_match tbl w l k p =
      { elo := pyround (((tbl p).elo : ℝ) + k * (0 - (1 - expected_win tbl w l))),
        wins := (tbl p).wins, losses := (tbl p).losses + 1 })
  ∧ (∀ p, p ∉ w → p ∉ l → adjust_elo_for_match tbl w l k p = tbl p) := by
  have hkeysW : ((w.map fun pid => (pid, pyround (((tbl pid).elo : ℝ) +
      k * (1 - expected_win tbl w l)))).map Prod.fst).Nodup := by
    rw [map_fst_pairs]
    exact hwnd
  have hkeysL : ((l.map fun pid => (pid, pyround (((tbl pid).elo : ℝ) +
      k * (0 - (1 - expected_win tbl w l))))).map Prod.fst).Nodup := by
    rw [map_fst_pairs]
    exact hlnd
  refine ⟨?_, ?_, ?_⟩
  · intro p hp
    have hpl : p ∉ l := hdisj p hp
    unfold adjust_elo_for_match
    rw [List.foldl_append]
    rw [foldl_elo_apply_not_mem w _ _ p (by rw [map_fst_pairs]; exact hpl)]
    rw [foldl_elo_apply_mem w _ tbl p _ hkeysW
      (List.mem_map_of_mem (fun pid => (pid, pyround (((tbl pid).elo : ℝ) +
        k * (1 - expected_win tbl w l)))) hp)]
    rw [if_pos hp]
  · intro p hp
    have hpw : p ∉ w := fun hc => hdisj p hc hp
    unfold adjust_elo_for_match
    rw [List.foldl_append]
    have hacc : ((w.map fun pid => (pid, pyround (((tbl pid).elo : ℝ) +
        k * (1 - expected_win tbl w l)))).foldl (elo_apply w) tbl) p = tbl p :=
      foldl_elo_apply_not_mem w _ tbl p (by rw [map_fst_pairs]; exact hpw)
    rw [foldl_elo_apply_mem w _ _ p _ hkeysL
      (List.mem_map_of_mem (fun pid => (pid, pyround (((tbl pid).elo : ℝ) +
        k * (0 - (1 - expected_win tbl w l))))) hp)]
    rw [if_neg hpw, hacc]
  · intro p hpw hpl
    unfold adjust_elo_for_match
    rw [List.foldl_append]
    rw [foldl_elo_apply_not_mem w _ _ p (by rw [map_fst_pairs]; exact hpl)]
    exact foldl_elo_apply_not_mem w _ tbl p (by rw [map_fst_pairs]; exact hpw)

theorem pyround_intCast (n : Int) : pyround ((n : ℝ)) = n := by
  unfold pyround
  rw [Int.fract_intCast]
  rw [if_neg (by norm_num)]
  exact round_intCast n

theorem pyround_int_add (n : Int) (y : ℝ) (hy : Int.fract y ≠ 1 / 2) :
    pyround ((n : ℝ) + y) = n + pyround y := by
  unfold pyround
  rw [Int.fract_int_add]
  rw [if_neg hy, if_neg hy]
  exact round_int_add y n

theorem cast_sum_elo (f : Nat → Int) : ∀ ids : List Nat,
    (((ids.map f).sum : Int) : ℝ) = (ids.map fun p => ((f p) : ℝ)).sum
  | [] => by simp
  | a :: r => by
    simp only [List.map_cons, List.sum_cons, Int.cast_add]
    rw [cast_sum_elo f r]

theorem exponent_ratCast (tbl : Nat → PlayerRec) (w l : List Nat) :
    ∃ x : ℚ, (x : ℝ) = (team_avg tbl l - team_avg tbl w) / 400 := by
  refine ⟨((((l.map fun p => (tbl p).elo).sum : ℚ) / (l.length : ℚ)) -
          (((w.map fun p => (tbl p).elo).sum : ℚ) / (w.length : ℚ))) / 400, ?_⟩
  unfold team_avg
  rw [← cast_sum_elo (fun p => (tbl p).elo) l, ← cast_sum_elo (fun p => (tbl p).elo) w]
  obtain ⟨Sl, hSl⟩ : ∃ s, (l.map fun p => (tbl p).elo).sum = s := ⟨_, rfl⟩
  obtain ⟨Sw, hSw⟩ : ∃ s, (w.map fun p => (tbl p).elo).sum = s := ⟨_, rfl⟩
  rw [hSl, hSw]
  push_cast
  ring

theorem padicValNat_ten : padicValNat 2 10 = 1 := by
  have h : (10 : Nat) = 2 * 5 := by norm_num
  rw [h, padicValNat.mul (by norm_num) (by norm_num),
    padicValNat.self (by norm_num), padicValNat.eq_zero_of_not_dvd (by norm_num)]

theorem padicValRat_zpow_ten (n : Int) : padicValRat 2 ((10 : ℚ) ^ n) = n := by
  have hten : padicValRat 2 (10 : ℚ) = 1 := by
    have h : (10 : ℚ) = ((10 : Nat) : ℚ) := by norm_num
    rw [h, padicValRat.of_nat, padicValNat_ten]
    norm_num
  rcases le_or_lt 0 n with hn | hn
  · obtain ⟨m, hm⟩ : ∃ m : Nat, n = (m : Int) := ⟨n.toNat, by omega⟩
    subst hm
    rw [zpow_natCast, padicValRat.pow (by norm_num), hten]
    ring
  · obtain ⟨m, hm⟩ : ∃ m : Nat, n = -(m : Int) := ⟨(-n).toNat, by omega⟩
    subst hm
    rw [zpow_neg, zpow_natCast, padicValRat.inv,
      padicValRat.pow (by norm_num), hten]
    ring

theorem rpow_ten_rat_den_one (x r : ℚ) (hr : 0 < r)
    (h : (10 : ℝ) ^ (x : ℝ) = (r : ℝ)) : x.den = 1 := by
  have hden0 : ((x.den : ℚ)) ≠ 0 := by
    exact_mod_cast x.den_nz
  have hqq : x * (x.den : ℚ) = (x.num : ℚ) := Rat.mul_den_eq_num x
  have hx : (x : ℝ) * ((x.den : ℕ) : ℝ) = ((x.num : ℤ) : ℝ) := by
    have := congrArg (fun y : ℚ => (y : ℝ)) hqq
    push_cast at this
    exact this
  have h1 : ((10 : ℝ) ^ (x : ℝ)) ^ (x.den : ℕ) = (10 : ℝ) ^ (x.num : ℤ) := by
    rw [← Real.rpow_natCast ((10 : ℝ) ^ (x : ℝ)) x.den,
      ← Real.rpow_mul (by norm_num : (0:ℝ) ≤ 10), hx, Real.rpow_intCast]
  have h2 : ((r : ℝ)) ^ (x.den : ℕ) = (10 : ℝ) ^ (x.num : ℤ) := by
    rw [← h]
    exact h1
  have h3 : r ^ (x.den : ℕ) = (10 : ℚ) ^ x.num := by
    have hcast1 : ((r : ℝ)) ^ (x.den : ℕ) = (((r ^ (x.den : ℕ) : ℚ)) : ℝ) := by
      push_cast
      ring
    have hcast2 : (10 : ℝ) ^ (x.num : ℤ) = ((((10 : ℚ) ^ x.num : ℚ)) : ℝ) := by
      push_cast
      ring
    rw [hcast1, hcast2] at h2
    exact_mod_cast h2
  haveI : Fact (Nat.Prime 2) := ⟨Nat.prime_two⟩
  have hr0 : r ≠ 0 := ne_of_gt hr
  have hveq : ((x.den : ℕ) : ℤ) * padicValRat 2 r = x.num := by
    have hv1 : padicValRat 2 (r ^ (x.den : ℕ)) =
        ((x.den : ℕ) : ℤ) * padicValRat 2 r := padicValRat.pow hr0
    rw [← hv1, h3, padicValRat_zpow_ten]
  have hdvd : ((x.den : ℕ) : ℤ) ∣ x.num := Dvd.intro _ hveq
  have hdvd2 : x.den ∣ x.num.natAbs := by
    have := Int.natAbs_dvd_natAbs.mpr hdvd
    simpa using this
  exact Nat.Coprime.eq_one_of_dvd (Nat.Coprime.symm x.reduced) hdvd2

/-- With rational team averages, `64 * (1 - expected_win)` is never an odd
integer, so neither rounding input of the rating update can land exactly on
a half-integer tie. -/
theorem no_half_tie (x : ℚ) (j : Int) :
    (64 : ℝ) * (1 - 1 / (1 + (10 : ℝ) ^ (x : ℝ))) ≠ 2 * (j : ℝ) + 1 := by
  intro hEq
  have hupos : (0 : ℝ) < (10 : ℝ) ^ (x : ℝ) :=
    Real.rpow_pos_of_pos (by norm_num) _
  set u : ℝ := (10 : ℝ) ^ (x : ℝ) with hu
  have h1u : (0 : ℝ) < 1 + u := by linarith
  have key : u * (63 - 2 * (j : ℝ))  = 2 * (j : ℝ) + 1 := by
    have h2 : (64 : ℝ) * (1 - 1 / (1 + u)) = 64 * u / (1 + u) := by
      field_simp
    rw [h2] at hEq
    rw [div_eq_iff (ne_of_gt h1u)] at hEq
    nlinarith [hEq]
  have hj0 : 0 ≤ j := by
    by_contra hneg
    push_neg at hneg
    have hj1 : j ≤ -1 := by omega
    have hjr : (j : ℝ) ≤ -1 := by exact_mod_cast hj1
    nlinarith [hupos, key]
  have hj31 : j ≤ 31 := by
    by_contra hbig
    push_neg at hbig
    have hjr : (32 : ℝ) ≤ (j : ℝ) := by exact_mod_cast hbig
    nlinarith [hupos, key]
  have hj0r : (0 : ℝ) ≤ (j : ℝ) := by exact_mod_cast hj0
  have hj31r : (j : ℝ) ≤ 31 := by exact_mod_cast hj31
  have hden63 : (0 : ℝ) < 63 - 2 * (j : ℝ) := by linarith
  have hrq : (0 : ℚ) < (2 * (j : ℚ) + 1) / (63 - 2 * (j : ℚ)) := by
    have h1 : (0 : ℚ) < 2 * (j : ℚ) + 1 := by
      have : (0 : ℚ) ≤ (j : ℚ) := by exact_mod_cast hj0
      linarith
    have h2 : (0 : ℚ) < 63 - 2 * (j : ℚ) := by
      have : (j : ℚ) ≤ 31 := by exact_mod_cast hj31
      linarith
    exact div_pos h1 h2
  have hur : (10 : ℝ) ^ (x : ℝ) =
      (((2 * (j : ℚ) + 1) / (63 - 2 * (j : ℚ)) : ℚ) : ℝ) := by
    push_cast
    rw [eq_div_iff (ne_of_gt hden63)]
    rw [← hu]
    linarith [key]
  have hden1 : x.den = 1 :=
    rpow_ten_rat_den_one x ((2 * (j : ℚ) + 1) / (63 - 2 * (j : ℚ))) hrq hur
  have hxn : x = ((x.num : ℤ) : ℚ) := by
    conv_lhs => rw [← Rat.num_div_den x]
    rw [hden1]
    norm_num
  have hzpow : u = (10 : ℝ) ^ (x.num : ℤ) := by
    have hcast : ((x : ℚ) : ℝ) = ((x.num : ℤ) : ℝ) := by
      conv_lhs => rw [hxn]
      exact Rat.cast_intCast x.num
    rw [hu, hcast, Real.rpow_intCast]
  have hub : u ≤ 63 := by nlinarith [key]
  have hlb : (1 : ℝ) / 63 ≤ u := by nlinarith [key, hupos]
  have hn2 : x.num ≤ 1 := by
    by_contra hbig
    push_neg at hbig
    have h100 : (100 : ℝ) ≤ u := by
      calc (100 : ℝ) = (10 : ℝ) ^ (2 : Int) := by norm_num
      _ ≤ (10 : ℝ) ^ (x.num : Int) :=
          zpow_le_zpow_right₀ (by norm_num) (by omega)
      _ = u := hzpow.symm
    linarith
  have hn1 : -1 ≤ x.num := by
    by_contra hsmall
    push_neg at hsmall
    have h100 : u ≤ (1 : ℝ) / 100 := by
      calc u = (10 : ℝ) ^ (x.num : Int) := hzpow
      _ ≤ (10 : ℝ) ^ (-2 : Int) := zpow_le_zpow_right₀ (by norm_num) (by omega)
      _ = (1 : ℝ) / 100 := by norm_num
    linarith
  interval_cases h : x.num
  · have h10 : u = 1 / 10 := by
      rw [hzpow]
      norm_num
    rw [h10] at key
    have hr10 : (63 : ℝ) - 2 * (j : ℝ) = 20 * (j : ℝ) + 10 := by linarith
    have hz : (63 : Int) - 2 * j = 20 * j + 10 := by exact_mod_cast hr10
    omega
  · have h10 : u = 1 := by
      rw [hzpow]
      norm_num
    rw [h10] at key
    have hr1 : (63 : ℝ) - 2 * (j : ℝ) = 2 * (j : ℝ) + 1 := by linarith
    have hz : (63 : Int) - 2 * j = 2 * j + 1 := by exact_mod_cast hr1
    omega
  · have h10 : u = 10 := by
      rw [hzpow]
      norm_num
    rw [h10] at key
    have hr2 : (630 : ℝ) - 20 * (j : ℝ) = 2 * (j : ℝ) + 1 := by linarith
    have hz : (630 : Int) - 20 * j = 2 * j + 1 := by exact_mod_cast hr2
    omega

theorem fract_eq_half_floor (z : ℝ) (h : Int.fract z = 1 / 2) :
    z = (⌊z⌋ : ℝ) + 1 / 2 := by
  have hz := Int.floor_add_fract z
  rw [h] at hz
  linarith

theorem delta_fract_ne_half (tbl : Nat → PlayerRec) (w l : List Nat) :
    Int.fract ((32 : ℝ) * (1 - expected_win tbl w l)) ≠ 1 / 2 ∧
    Int.fract ((32 : ℝ) * (0 - (1 - expected_win tbl w l))) ≠ 1 / 2 := by
  obtain ⟨x, hx⟩ := exponent_ratCast tbl w l
  have he : expected_win tbl w l = 1 / (1 + (10 : ℝ) ^ (x : ℝ)) := by
    unfold expected_win
    rw [hx]
  constructor
  · intro hf
    have h1 := fract_eq_half_floor _ hf
    refine no_half_tie x ⌊(32 : ℝ) * (1 - expected_win tbl w l)⌋ ?_
    rw [← he]
    linarith [h1]
  · intro hf
    have h1 := fract_eq_half_floor _ hf
    refine no_half_tie x (-⌊(32 : ℝ) * (0 - (1 - expected_win tbl w l))⌋ - 1) ?_
    rw [← he]
    push_cast
    linarith [h1]

theorem expected_win_eq_half (tbl : Nat → PlayerRec) (w l : List Nat)
    (h : team_avg tbl w = team_avg tbl l) : expected_win tbl w l = 1 / 2 := by
  unfold expected_win
  rw [h, sub_self, zero_div, Real.rpow_zero]
  norm_num

/-- C6: for every resolved match (modelled by `adjust_elo_for_match` on two
duplicate-free, disjoint teams), with team averages and
`expectedWin = 1/(1 + 10^((loserAvg - winnerAvg)/400))` computed from the
ratings captured before any update of the batch is applied, every
winning-team player's rating changes by exactly `round(K*(1 - expectedWin))`
with wins incremented by 1, every losing-team player's rating changes by
`round(K*(0 - expectedLose))` with losses incremented by 1 (all other
players untouched); in particular for two equal-size teams with equal
average ratings every winner's delta is `round(32 * 0.5)` and every loser's
delta is `round(32 * -0.5)`.  (`round` is Python's round, modelled by
`pyround`; the code computes `round(old + delta)`, which coincides with
`old + round(delta)` because `delta` can never land on a half-integer tie -
see `no_half_tie`.) -/
theorem c6_elo_update (tbl : Nat → PlayerRec) (w l : List Nat)
    (hwnd : w.Nodup) (hlnd : l.Nodup) (hdisj : ∀ p, p ∈ w → p ∉ l) :
    (∀ p ∈ w,
      (adjust_elo_for_match tbl w l 32 p).elo =
        (tbl p).elo + pyround ((32 : ℝ) * (1 - expected_win tbl w l))
      ∧ (adjust_elo_for_match tbl w l 32 p).wins = (tbl p).wins + 1
      ∧ (adjust_elo_for_match tbl w l 32 p).losses = (tbl p).losses)
  ∧ (∀ p ∈ l,
      (adjust_elo_for_match tbl w l 32 p).elo =
        (tbl p).elo + pyround ((32 : ℝ) * (0 - (1 - expected_win tbl w l)))
      ∧ (adjust_elo_for_match tbl w l 32 p).losses = (tbl p).losses + 1
      ∧ (adjust_elo_for_match tbl w l 32 p).wins = (tbl p).wins)
  ∧ (∀ p, p ∉ w → p ∉ l → adjust_elo_for_match tbl w l 32 p = tbl p)
  ∧ (w.length = l.length → team_avg tbl w = team_avg tbl l →
      (∀ p ∈ w, (adjust_elo_for_match tbl w l 32 p).elo - (tbl p).elo =
        pyround ((32 : ℝ) * (1 / 2)))
      ∧ (∀ p ∈ l, (adjust_elo_for_match tbl w l 32 p).elo - (tbl p).elo =
        pyround ((32 : ℝ) * (-(1 / 2))))) := by
  obtain ⟨hW, hL, hO⟩ := adjust_elo_spec tbl w l 32 hwnd hlnd hdisj
  obtain ⟨hf1, hf2⟩ := delta_fract_ne_half tbl w l
  have hWelo : ∀ p ∈ w, (adjust_elo_for_match tbl w l 32 p).elo =
      (tbl p).elo + pyround ((32 : ℝ) * (1 - expected_win tbl w l)) := by
    intro p hp
    rw [hW p hp]
    exact pyround_int_add ((tbl p).elo) _ hf1
  have hLelo : ∀ p ∈ l, (adjust_elo_for_match tbl w l 32 p).elo =
      (tbl p).elo + pyround ((32 : ℝ) * (0 - (1 - expected_win tbl w l))) := by
    intro p hp
    rw [hL p hp]
    exact pyround_int_add ((tbl p).elo) _ hf2
  refine ⟨?_, ?_, hO, ?_⟩
  · intro p hp
    exact ⟨hWelo p hp, by rw [hW p hp], by rw [hW p hp]⟩
  · intro p hp
    exact ⟨hLelo p hp, by rw [hL p hp], by rw [hL p hp]⟩
  · intro _ havg
    have he : expected_win tbl w l = 1 / 2 := expected_win_eq_half tbl w l havg
    constructor
    · intro p hp
      rw [hWelo p hp, he]
      have harg : (32 : ℝ) * (1 - 1 / 2) = 32 * (1 / 2) := by norm_num
      rw [harg]
      omega
    · intro p hp
      rw [hLelo p hp, he]
      have harg : (32 : ℝ) * (0 - (1 - 1 / 2)) = 32 * (-(1 / 2)) := by norm_num
      rw [harg]
      omega

/-- C6 witness: the rating theorem at a concrete input: two 1-player teams
with equal ratings 1200; the winner moves to 1216 with a win increment and
the loser to 1184 with a loss increment. -/
theorem c6_witness :
    (adjust_elo_for_match tbl0 [1] [2] 32 1).elo = 1216
  ∧ (adjust_elo_for_match tbl0 [1] [2] 32 1).wins = 4
  ∧ (adjust_elo_for_match tbl0 [1] [2] 32 2).elo = 1184
  ∧ (adjust_elo_for_match tbl0 [1] [2] 32 2).losses = 5 := by
  have h := c6_elo_update tbl0 [1] [2] (by decide) (by decide) (by decide)
  have havg : team_avg tbl0 [1] = team_avg tbl0 [2] := by
    unfold team_avg tbl0
    norm_num
  have h4 := h.2.2.2 rfl havg
  have hpw : pyround ((32 : ℝ) * (1 / 2)) = 16 := by
    have harg : (32 : ℝ) * (1 / 2) = ((16 : Int) : ℝ) := by norm_num
    rw [harg, pyround_intCast]
  have hpl : pyround ((32 : ℝ) * (-(1 / 2))) = -16 := by
    have harg : (32 : ℝ) * (-(1 / 2)) = ((-16 : Int) : ℝ) := by norm_num
    rw [harg, pyround_intCast]
  have hw1 := h4.1 1 (by decide)
  have hl2 := h4.2 2 (by decide)
  rw [hpw] at hw1
  rw [hpl] at hl2
  have hwins := (h.1 1 (by decide)).2.1
  have hloss := (h.2.1 2 (by decide)).2.1
  have helo1 : (tbl0 1).elo = 1200 := rfl
  have helo2 : (tbl0 2).elo = 1200 := rfl
  have hwins0 : (tbl0 1).wins = 3 := rfl
  have hloss0 : (tbl0 2).losses = 4 := rfl
  rw [helo1] at hw1
  rw [helo2] at hl2
  rw [hwins0] at hwins
  rw [hloss0] at hloss
  exact ⟨by omega, hwins, by omega, hloss⟩
